import Mathlib

/-
Verification development for the recognizr face-detector post-processing
pipeline (check_model.py): letterbox preprocessing, multi-stride proposal
decoding, and greedy non-maximum suppression.

All numeric quantities are modelled over the rationals; the Python source
performs the same arithmetic in IEEE floating point, which is exact on the
small integer-valued inputs considered here.  The single genuinely
float-specific behaviour, division by a zero union area in the NMS loop
(which yields NaN or infinity in NumPy, both of which fail the comparison
`ovr <= NMS_THRESHOLD`), is modelled explicitly by a Boolean guard.
-/

namespace Recognizr

/-- Axis-aligned bounding box (x1, y1, x2, y2) in canvas pixel coordinates,
as produced by `decode_proposals`. -/
structure Box where
  x1 : ℚ
  y1 : ℚ
  x2 : ℚ
  y2 : ℚ
deriving DecidableEq, Repr

instance : Inhabited Box := ⟨⟨0, 0, 0, 0⟩⟩

/-- Decoded candidate detection: bounding box, confidence score and the
five decoded landmark points, mirroring the dict
`{'bbox': …, 'score': …, 'kps': …}` built in `decode_proposals`. -/
structure Proposal where
  bbox : Box
  score : ℚ
  kps : List (ℚ × ℚ)
deriving DecidableEq, Repr

instance : Inhabited Proposal := ⟨⟨default, 0, []⟩⟩

/-! ### Non-maximum suppression (function `nms`, check_model.py lines 76-99) -/

/-- Area `(x2 - x1) * (y2 - y1)` of a box, as computed at line 87 and in the
union expression at line 95 of check_model.py. -/
def boxArea (b : Box) : ℚ := (b.x2 - b.x1) * (b.y2 - b.y1)

/-- Intersection area of two boxes with each overlap extent clamped to be
nonnegative: lines 88-94 of check_model.py
(`xx1 = max(…)`, `xx2 = min(…)`, `w = max(0, xx2 - xx1)`, …). -/
def interArea (b c : Box) : ℚ :=
  max 0 (min b.x2 c.x2 - max b.x1 c.x1) * max 0 (min b.y2 c.y2 - max b.y1 c.y1)

/-- Union area `area_b + area_c - intersection`, line 95 of check_model.py. -/
def unionArea (b c : Box) : ℚ := boxArea b + boxArea c - interArea b c

/-- Intersection over union as a rational number.  Meaningful whenever the
union area is nonzero; when the union is zero this junk-totalises to 0
(rational division by zero), which matches the guarded definition used in
the specification text. -/
def iouQ (b c : Box) : ℚ := interArea b c / unionArea b c

/-- Survival test applied to each remaining box `c` against the kept box `b`
(line 96-97 of check_model.py: `ovr = intersection / union` followed by
`np.where(ovr <= NMS_THRESHOLD)`).  In NumPy, when `union == 0` the float
division produces NaN (0/0) or infinity (positive/0) and in either case
`ovr <= t` evaluates to false, so the box is suppressed; the guard makes
this explicit.  When `union ≠ 0` the comparison is the exact rational one. -/
def survivesB (t : ℚ) (b c : Box) : Bool :=
  if unionArea b c = 0 then false
  else decide (interArea b c / unionArea b c ≤ t)

/-- Index-sort of `[0, …, n)` by score, ascending.  Models
`scores.argsort()` at line 82 of check_model.py.  NumPy's default argsort
kind is introsort, which is unstable in general and guarantees only a
correct ascending order; it degenerates to insertion sort — hence stable —
below its small-array cutoff.  The model uses insertion sort; theorems
about tie order are therefore asserted only at concrete small inputs
(where the program is insertion sort too), and every other theorem about
the suppression pipeline depends only on the sortedness and permutation
properties shared by every correct argsort. -/
def argsortAsc (s : ℕ → ℚ) (n : ℕ) : List ℕ :=
  (List.range n).insertionSort fun i j => s i ≤ s j

/-- Index-sort of `[0, …, n)` by score, descending: the stable ascending
argsort reversed, modelling `scores.argsort()[::-1]` at line 82 of
check_model.py.  Note that the reversal puts equal scores in DESCENDING
original-index order. -/
def argsortDesc (s : ℕ → ℚ) (n : ℕ) : List ℕ :=
  (argsortAsc s n).reverse

/-- Score of the i-th proposal of the list (indices produced by
`argsortDesc` are always in range, so the default is never read). -/
def scoreAt (l : List Proposal) (i : ℕ) : ℚ := (l.getD i default).score

/-- Bounding box of the i-th proposal of the list. -/
def boxAt (l : List Proposal) (i : ℕ) : Box := (l.getD i default).bbox

/-- Greedy suppression loop over the ordered index list (the `while
order.size > 0` loop, lines 84-98 of check_model.py): keep the first
index, filter the rest by the survival test against the kept box,
recurse.  The first argument is recursion fuel making the definition
structurally recursive; each filter only shrinks the list, so any fuel of
at least the list's length yields the loop's exact behaviour, and callers
pass the length. -/
def nmsLoop (t : ℚ) (f : ℕ → Box) : ℕ → List ℕ → List ℕ
  | _, [] => []
  | 0, _ :: _ => []
  | fuel + 1, i :: rest =>
      i :: nmsLoop t f fuel (rest.filter fun j => survivesB t (f i) (f j))

/-- Indices kept by NMS (`keep_indices` in check_model.py), with the IoU
threshold `t` as an explicit parameter (the source reads the module
constant `NMS_THRESHOLD = 0.4`). -/
def nmsKeep (t : ℚ) (l : List Proposal) : List ℕ :=
  nmsLoop t (boxAt l) l.length (argsortDesc (scoreAt l) l.length)

/-- Full NMS: the kept proposals in kept order
(`[proposals[i] for i in keep_indices]`, line 99 of check_model.py). -/
def nms (t : ℚ) (l : List Proposal) : List Proposal :=
  (nmsKeep t l).map fun i => l.getD i default

/-- IoU threshold configured at line 7 of check_model.py
(`NMS_THRESHOLD = 0.4`). -/
def nmsThreshold : ℚ := 2/5

/-- Confidence threshold configured at line 6 of check_model.py
(`CONF_THRESHOLD = 0.5`). -/
def confThreshold : ℚ := 1/2

/-! ### Proposal decoding (function `decode_proposals`, lines 36-74) -/

/-- Stride levels paired with their positional index, as produced by
`enumerate(strides)` with `strides = [8, 16, 32]` (lines 40-42). -/
def strideEnum : List (ℕ × ℕ) := [(0, 8), (1, 16), (2, 32)]

/-- Feature-grid extent `int(np.ceil(a / s))` for natural `a` and positive
stride `s` (lines 47-48 of check_model.py). -/
def ceilDiv (a s : ℕ) : ℕ := (a + s - 1) / s

/-- Flat tensor index `(y * feature_width * 2) + (x * 2) + anchor_idx`
(line 53 of check_model.py). -/
def cellIdx (fw y x a : ℕ) : ℕ := y * fw * 2 + x * 2 + a

/-- Decode of one (cell, anchor) slot (lines 54-73 of check_model.py).
`out k idx j` is the j-th component of row `idx` of the squeezed output
tensor `outputs[k]`: score tensors have one component per row, box tensors
four, landmark tensors ten.  Returns `none` when the confidence filter
`score < CONF_THRESHOLD` skips the slot. -/
def decodeCell (out : ℕ → ℕ → ℕ → ℚ) (thr : ℚ) (i s fw y x a : ℕ) :
    Option Proposal :=
  let idx := cellIdx fw y x a
  let score := out i idx 0
  if score < thr then none
  else
    let cx : ℚ := ((x : ℚ) + 1/2) * s
    let cy : ℚ := ((y : ℚ) + 1/2) * s
    let dl := out (i + 3) idx 0 * s
    let dt := out (i + 3) idx 1 * s
    let dr := out (i + 3) idx 2 * s
    let db := out (i + 3) idx 3 * s
    let kp := (List.range 5).map fun k =>
      (cx + out (i + 6) idx (2 * k) * s, cy + out (i + 6) idx (2 * k + 1) * s)
    some ⟨⟨cx - dl, cy - dt, cx + dr, cy + db⟩, score, kp⟩

/-- Full decoder (function `decode_proposals`): for each stride level
`(i, s)` the score, box and landmark tensors live at output indices `i`,
`i + 3` and `i + 6`; the loop runs row-major over the
`ceil(h/s) × ceil(w/s)` grid with 2 anchors per cell, appending the
surviving proposals in iteration order. -/
def decodeProposals (out : ℕ → ℕ → ℕ → ℚ) (w h : ℕ) (thr : ℚ) :
    List Proposal :=
  strideEnum.flatMap fun p =>
    (List.range (ceilDiv h p.2)).flatMap fun y =>
      (List.range (ceilDiv w p.2)).flatMap fun x =>
        (List.range 2).filterMap fun a =>
          decodeCell out thr p.1 p.2 (ceilDiv w p.2) y x a

/-! ### Letterbox preprocessing (function `preprocess_image_topleft`,
lines 13-34) and coordinate inversion (lines 129-130) -/

/-- Error raised by a failing pipeline stage.  `zeroDivisionError` is the
Python `ZeroDivisionError` raised by `a / 0`; `invalidInput` is the
`InvalidInput` error named by the specification's error taxonomy (no code
in check_model.py raises it); `cvError` is the `cv2.error` raised by
OpenCV, in particular by `cv2.resize` when asked for an empty target
size. -/
inductive PyError where
  | zeroDivisionError
  | invalidInput
  | cvError
deriving DecidableEq, Repr

/-- Python division `a / b`: raises `ZeroDivisionError` when `b = 0`,
otherwise returns the exact quotient. -/
def pyDiv (a b : ℚ) : Except PyError ℚ :=
  if b = 0 then .error .zeroDivisionError else .ok (a / b)

/-- Python `int(q)` for the nonnegative values arising here: truncation
toward zero, i.e. the floor clamped to ℕ. -/
def pyInt (q : ℚ) : ℕ := ⌊q⌋.toNat

/-- Scaling factor computed at line 21 of check_model.py:
`ratio = min(target_width / img_w, target_height / img_h)`, with each
division carrying Python's division-by-zero behaviour. -/
def preprocessScale (w h tw th : ℕ) : Except PyError ℚ := do
  let r1 ← pyDiv (tw : ℚ) (w : ℚ)
  let r2 ← pyDiv (th : ℚ) (h : ℚ)
  pure (min r1 r2)

/-- Arithmetic core of `preprocess_image_topleft`: the scaling factor and
the resized dimensions `new_w, new_h = int(img_w * ratio), int(img_h *
ratio)` (lines 21-24 of check_model.py).  Returns `(new_w, new_h, scale)`.
This covers only the arithmetic of lines 21-24; the full observable
behaviour of the function, including the resize call of line 27, is
`preprocessImage` below. -/
def preprocessDims (w h tw th : ℕ) : Except PyError (ℕ × ℕ × ℚ) := do
  let sc ← preprocessScale w h tw th
  pure (pyInt ((w : ℚ) * sc), pyInt ((h : ℚ) * sc), sc)

/-- Outcome of the `cv2.resize(img, (new_w, new_h))` call at line 27 of
check_model.py at the dimension level: OpenCV raises `cv2.error` when
either requested dimension is 0 (the resizer's assertion on an empty
target size with no explicit scale factors), and otherwise produces an
image of the requested dimensions. -/
def cvResize (nw nh : ℕ) : Except PyError (ℕ × ℕ) :=
  if nw = 0 ∨ nh = 0 then .error .cvError else .ok (nw, nh)

/-- Full dimension-level behaviour of `preprocess_image_topleft`: the
scale arithmetic of lines 21-24 followed by the resize call of line 27,
whose failure on a zero computed dimension propagates.  Returns
`(new_w, new_h, scale)` on success. -/
def preprocessImage (w h tw th : ℕ) : Except PyError (ℕ × ℕ × ℚ) := do
  let d ← preprocessDims w h tw th
  let _ ← cvResize d.1 d.2.1
  pure d

/-- Inversion of a kept detection's box from canvas space to
original-image space: `bbox = face['bbox'] / ratio`, line 129 of
check_model.py — elementwise division by the letterbox scale, with no
offset subtraction. -/
def rescaleBox (b : Box) (sc : ℚ) : Box :=
  ⟨b.x1 / sc, b.y1 / sc, b.x2 / sc, b.y2 / sc⟩

/-- Inversion of a kept detection's landmarks: `kps = face['kps'] / ratio`,
line 130 of check_model.py. -/
def rescaleKps (kp : List (ℚ × ℚ)) (sc : ℚ) : List (ℚ × ℚ) :=
  kp.map fun p => (p.1 / sc, p.2 / sc)

/-- Synthetic raw output set for the end-to-end scenario of the
specification: on a 640×640 canvas, stride 8 has an 80×80 grid, so the
slot at grid cell (10, 10), anchor 0 sits at flat index
10*80*2 + 10*2 + 0 = 1620.  The stride-8 score tensor (output 0) holds
0.9 there and 0 elsewhere; the stride-8 box tensor (output 3) holds the
distances (5, 5, 5, 5) there; every other tensor entry is 0, so no other
slot passes the 0.5 confidence threshold. -/
def c2out : ℕ → ℕ → ℕ → ℚ := fun k idx j =>
  if k = 0 ∧ idx = 1620 ∧ j = 0 then 9/10
  else if k = 3 ∧ idx = 1620 then 5
  else 0

/-! ### Helper lemmas about the suppression loop -/

/-- Characterisation of the survival test: a box survives against the kept
box exactly when their union area is nonzero and the IoU does not exceed
the threshold. -/
theorem survivesB_eq_true {t : ℚ} {b c : Box} :
    survivesB t b c = true ↔
      unionArea b c ≠ 0 ∧ interArea b c / unionArea b c ≤ t := by
  by_cases h : unionArea b c = 0 <;> simp [survivesB, h]

/-- Intersection area is symmetric in the two boxes. -/
theorem interArea_comm (b c : Box) : interArea b c = interArea c b := by
  simp [interArea, min_comm, max_comm]

/-- Union area is symmetric in the two boxes. -/
theorem unionArea_comm (b c : Box) : unionArea b c = unionArea c b := by
  simp [unionArea, interArea_comm, add_comm]

/-- IoU is symmetric in the two boxes. -/
theorem iouQ_comm (b c : Box) : iouQ b c = iouQ c b := by
  rw [iouQ, iouQ, interArea_comm, unionArea_comm]

/-- The suppression loop only ever keeps indices of its input, in order. -/
theorem nmsLoop_sublist (t : ℚ) (f : ℕ → Box) :
    ∀ (fuel : ℕ) (l : List ℕ), (nmsLoop t f fuel l).Sublist l := by
  intro fuel
  induction fuel with
  | zero => intro l; cases l <;> simp [nmsLoop]
  | succ n ih =>
    intro l
    cases l with
    | nil => simp [nmsLoop]
    | cons i rest =>
      rw [nmsLoop]
      exact ((ih _).trans (List.filter_sublist _)).cons₂ i

/-- Every index kept after the head of a round survived the round's filter:
the kept index list is pairwise related by the survival test. -/
theorem nmsLoop_pairwise (t : ℚ) (f : ℕ → Box) :
    ∀ (fuel : ℕ) (l : List ℕ),
      (nmsLoop t f fuel l).Pairwise fun i j => survivesB t (f i) (f j) = true := by
  intro fuel
  induction fuel with
  | zero => intro l; cases l <;> simp [nmsLoop]
  | succ n ih =>
    intro l
    cases l with
    | nil => simp [nmsLoop]
    | cons i rest =>
      rw [nmsLoop]
      refine List.Pairwise.cons ?_ (ih _)
      intro j hj
      have hmem := (nmsLoop_sublist t f n _).subset hj
      simpa using List.of_mem_filter hmem

/-- Membership in the descending argsort is exactly membership in the index
range. -/
theorem mem_argsortDesc {s : ℕ → ℚ} {n i : ℕ} : i ∈ argsortDesc s n ↔ i < n := by
  rw [argsortDesc, List.mem_reverse, argsortAsc,
    (List.perm_insertionSort _ _).mem_iff, List.mem_range]

/-- The descending argsort is sorted by score, descending. -/
theorem argsortDesc_sorted (s : ℕ → ℚ) (n : ℕ) :
    (argsortDesc s n).Pairwise fun a b => s b ≤ s a := by
  haveI : IsTotal ℕ fun i j => s i ≤ s j := ⟨fun a b => le_total (s a) (s b)⟩
  haveI : IsTrans ℕ fun i j => s i ≤ s j := ⟨fun a b c hab hbc => le_trans hab hbc⟩
  rw [argsortDesc, List.pairwise_reverse]
  exact List.sorted_insertionSort _ _

/-- C3: for every input proposal list and threshold, no two proposals kept
by `nms` have pairwise IoU exceeding the threshold — the kept list is
pairwise IoU-bounded (and `iouQ` is symmetric, lemma `iouQ_comm`, so the
bound holds for every unordered pair of kept proposals). -/
theorem claim_C3 (t : ℚ) (l : List Proposal) :
    (nms t l).Pairwise fun p q => iouQ p.bbox q.bbox ≤ t := by
  rw [nms, List.pairwise_map]
  refine (nmsLoop_pairwise t (boxAt l) _ _).imp ?_
  intro i j hij
  rw [survivesB_eq_true] at hij
  simpa [iouQ, boxAt] using hij.2

/-- C5 (amended): the IoU used by `nms` is the axis-clamped intersection
area divided by the union area, but the code has no zero-union guard:
when the union is 0 the NumPy float division yields NaN or infinity, the
comparison with the threshold is false, and the proposal is SUPPRESSED
(`survivesB` is false), not kept.  Consequently no division by a zero
union ever decides a kept pair: any two proposals kept together have
nonzero union area. -/
theorem claim_C5_amended (t : ℚ) (b c : Box) (l : List Proposal) :
    (unionArea b c = 0 → survivesB t b c = false) ∧
    (unionArea b c ≠ 0 →
      (survivesB t b c = true ↔ interArea b c / unionArea b c ≤ t)) ∧
    (nmsKeep t l).Pairwise fun i j => unionArea (boxAt l i) (boxAt l j) ≠ 0 := by
  refine ⟨fun h => by simp [survivesB, h], fun h => by simp [survivesB, h], ?_⟩
  refine (nmsLoop_pairwise t (boxAt l) _ _).imp ?_
  intro i j hij
  exact (survivesB_eq_true.mp hij).1

/-- Witness for C5 (amended) at a concrete degenerate box pair. -/
theorem claim_C5_amended_witness :
    survivesB nmsThreshold ⟨0, 0, 0, 0⟩ ⟨0, 0, 0, 0⟩ = false :=
  (claim_C5_amended nmsThreshold ⟨0, 0, 0, 0⟩ ⟨0, 0, 0, 0⟩ []).1
    (by norm_num [unionArea, boxArea, interArea])

/-- C5 counterexample: two coincident zero-area boxes have union area 0,
and `nms` SUPPRESSES the lower-scoring one instead of treating the pair
as IoU 0 (which, at threshold 0.4, would have kept both as the claim
requires). -/
theorem claim_C5_counterexample :
    unionArea ⟨0, 0, 0, 0⟩ ⟨0, 0, 0, 0⟩ = 0 ∧
    nms nmsThreshold [⟨⟨0, 0, 0, 0⟩, 9/10, []⟩, ⟨⟨0, 0, 0, 0⟩, 8/10, []⟩]
      = [⟨⟨0, 0, 0, 0⟩, 9/10, []⟩] := by
  constructor
  · norm_num [unionArea, boxArea, interArea]
  · norm_num [nms, nmsKeep, argsortDesc, argsortAsc, List.insertionSort,
      List.orderedInsert, scoreAt, nmsLoop, survivesB, boxAt, interArea,
      unionArea, boxArea, nmsThreshold]

/-- C6 (amended): raising the IoU threshold is monotone for each single
suppression round — the survivors of a round at threshold t1 ≤ t2 form a
sublist of the survivors at t2.  The original claim (the total kept count
is monotone in the threshold) is false for the greedy loop, see the
counterexample. -/
theorem claim_C6_amended (t1 t2 : ℚ) (h : t1 ≤ t2) (b : Box) (f : ℕ → Box)
    (l : List ℕ) :
    (l.filter fun j => survivesB t1 b (f j)).Sublist
      (l.filter fun j => survivesB t2 b (f j)) := by
  refine List.monotone_filter_right _ ?_
  intro a ha
  have ha' : survivesB t1 b (f a) = true := by simpa using ha
  show survivesB t2 b (f a) = true
  rw [survivesB_eq_true] at ha' ⊢
  exact ⟨ha'.1, ha'.2.trans h⟩

/-- Witness for C6 (amended) at a concrete filter instance. -/
theorem claim_C6_amended_witness :
    (([0] : List ℕ).filter fun j =>
        survivesB 0 ⟨0, 0, 1, 1⟩ ((fun _ => Box.mk 0 0 1 1) j)).Sublist
      (([0] : List ℕ).filter fun j =>
        survivesB 1 ⟨0, 0, 1, 1⟩ ((fun _ => Box.mk 0 0 1 1) j)) :=
  claim_C6_amended 0 1 (by norm_num) ⟨0, 0, 1, 1⟩ (fun _ => ⟨0, 0, 1, 1⟩) [0]

set_option maxHeartbeats 1600000 in
/-- C6 counterexample: a 4-proposal list on which the greedy loop keeps 3
proposals at IoU threshold 3/10 but only 2 at the larger threshold 1/2
(the moderately-overlapping second box survives the larger threshold and
then suppresses two boxes that the smaller threshold kept). -/
theorem claim_C6_counterexample :
    ((3 : ℚ)/10 ≤ 1/2) ∧
    (nms (1/2) [⟨⟨-30, 0, 60, 30⟩, 9/10, []⟩, ⟨⟨0, 0, 30, 30⟩, 8/10, []⟩,
        ⟨⟨0, 0, 30, 19⟩, 7/10, []⟩, ⟨⟨0, 11, 30, 30⟩, 6/10, []⟩]).length
      < (nms (3/10) [⟨⟨-30, 0, 60, 30⟩, 9/10, []⟩, ⟨⟨0, 0, 30, 30⟩, 8/10, []⟩,
        ⟨⟨0, 0, 30, 19⟩, 7/10, []⟩, ⟨⟨0, 11, 30, 30⟩, 6/10, []⟩]).length := by
  refine ⟨by norm_num, ?_⟩
  norm_num [nms, nmsKeep, argsortDesc, argsortAsc, List.insertionSort,
    List.orderedInsert, scoreAt, nmsLoop, survivesB, boxAt, interArea,
    unionArea, boxArea]

/-- C4 (amended): the order produced by `scores.argsort()[::-1]` is sorted
by score descending for every score assignment, but equal scores carry no
guaranteed processing order in general (NumPy's default argsort is
introsort, unstable beyond its small-array insertion-sort regime), and in
particular they are NOT processed in ascending original-index order: at
the concrete two-proposal tie of the counterexample — a size at which the
program's argsort is an insertion sort, hence stable — the reversal
processes the tied indices in DESCENDING original-index order.  The kept
set and order remain deterministic functions of the input list. -/
theorem claim_C4_amended (s : ℕ → ℚ) (n : ℕ) :
    (argsortDesc s n).Pairwise (fun a b => s b ≤ s a) ∧
    argsortDesc (scoreAt [⟨⟨0, 0, 10, 10⟩, 1/2, []⟩,
        ⟨⟨100, 100, 110, 110⟩, 1/2, []⟩]) 2 = [1, 0] := by
  refine ⟨argsortDesc_sorted s n, ?_⟩
  norm_num [argsortDesc, argsortAsc, List.insertionSort, List.orderedInsert,
    scoreAt]

/-- C4 counterexample: two distinct proposals with equal scores are
emitted by `nms` in descending original-index order (index 1 first),
whereas ascending tie-breaking would emit index 0 first. -/
theorem claim_C4_counterexample :
    nms nmsThreshold [⟨⟨0, 0, 10, 10⟩, 1/2, []⟩, ⟨⟨100, 100, 110, 110⟩, 1/2, []⟩]
      = [⟨⟨100, 100, 110, 110⟩, 1/2, []⟩, ⟨⟨0, 0, 10, 10⟩, 1/2, []⟩] ∧
    (⟨⟨100, 100, 110, 110⟩, 1/2, []⟩ : Proposal) ≠ ⟨⟨0, 0, 10, 10⟩, 1/2, []⟩ := by
  constructor
  · norm_num [nms, nmsKeep, argsortDesc, argsortAsc, List.insertionSort,
      List.orderedInsert, scoreAt, nmsLoop, survivesB, boxAt, interArea,
      unionArea, boxArea, nmsThreshold]
  · simp only [ne_eq, Proposal.mk.injEq, Box.mk.injEq, not_and]
    norm_num

/-- C10: for every nonempty proposal list, `nms` returns a nonempty list,
and some kept proposal has maximal score among all inputs (the first
greedy round keeps the head of the descending argsort before any removal
happens). -/
theorem claim_C10 (t : ℚ) (l : List Proposal) (h : l ≠ []) :
    nms t l ≠ [] ∧ ∃ p ∈ nms t l, ∀ q ∈ l, q.score ≤ p.score := by
  obtain ⟨m, hm⟩ : ∃ m, l.length = m + 1 := by
    cases l with
    | nil => exact absurd rfl h
    | cons a l' => exact ⟨l'.length, rfl⟩
  obtain ⟨i0, rest, hord⟩ : ∃ i0 rest,
      argsortDesc (scoreAt l) l.length = i0 :: rest := by
    cases hcase : argsortDesc (scoreAt l) l.length with
    | nil =>
      have hlen : (argsortDesc (scoreAt l) l.length).length = l.length := by
        simp [argsortDesc, argsortAsc, List.length_insertionSort]
      rw [hcase] at hlen
      simp at hlen
      omega
    | cons a r => exact ⟨a, r, rfl⟩
  have hkeep : nmsKeep t l = i0 :: nmsLoop t (boxAt l) m
      (rest.filter fun j => survivesB t (boxAt l i0) (boxAt l j)) := by
    rw [nmsKeep, hord, hm, nmsLoop]
  have hi0max : ∀ k, k < l.length → scoreAt l k ≤ scoreAt l i0 := by
    intro k hk
    have hmem : k ∈ argsortDesc (scoreAt l) l.length := mem_argsortDesc.mpr hk
    rw [hord] at hmem
    rcases List.mem_cons.mp hmem with rfl | hmem'
    · exact le_refl _
    · have hsorted := argsortDesc_sorted (scoreAt l) l.length
      rw [hord, List.pairwise_cons] at hsorted
      exact hsorted.1 k hmem'
  refine ⟨by rw [nms, hkeep]; simp, l.getD i0 default, ?_, ?_⟩
  · rw [nms, hkeep, List.map_cons]
    exact List.mem_cons_self _ _
  · intro q hq
    obtain ⟨k, hk, hkq⟩ := List.mem_iff_getElem.mp hq
    have hle := hi0max k hk
    simp only [scoreAt] at hle
    rwa [List.getD_eq_getElem l default hk, hkq] at hle

/-- Witness for C10 on a concrete one-proposal list. -/
theorem claim_C10_witness :
    nms nmsThreshold [⟨⟨0, 0, 10, 10⟩, 1, []⟩] ≠ [] ∧
    ∃ p ∈ nms nmsThreshold [⟨⟨0, 0, 10, 10⟩, 1, []⟩],
      ∀ q ∈ [(⟨⟨0, 0, 10, 10⟩, 1, []⟩ : Proposal)], q.score ≤ p.score :=
  claim_C10 nmsThreshold [⟨⟨0, 0, 10, 10⟩, 1, []⟩] (by simp)



theorem decodeCell_eq_some {out : ℕ → ℕ → ℕ → ℚ} {thr : ℚ} {i s fw y x a : ℕ}
    {p : Proposal} :
    decodeCell out thr i s fw y x a = some p ↔
      thr ≤ out i (cellIdx fw y x a) 0 ∧
      p = ⟨⟨((x : ℚ) + 1/2) * s - out (i + 3) (cellIdx fw y x a) 0 * s,
            ((y : ℚ) + 1/2) * s - out (i + 3) (cellIdx fw y x a) 1 * s,
            ((x : ℚ) + 1/2) * s + out (i + 3) (cellIdx fw y x a) 2 * s,
            ((y : ℚ) + 1/2) * s + out (i + 3) (cellIdx fw y x a) 3 * s⟩,
           out i (cellIdx fw y x a) 0,
           (List.range 5).map fun k =>
             (((x : ℚ) + 1/2) * s + out (i + 6) (cellIdx fw y x a) (2 * k) * s,
              ((y : ℚ) + 1/2) * s + out (i + 6) (cellIdx fw y x a) (2 * k + 1) * s)⟩ := by
  by_cases hlt : out i (cellIdx fw y x a) 0 < thr
  · simp [decodeCell, hlt, not_le.mpr hlt]
  · simp [decodeCell, hlt, not_lt.mp hlt, eq_comm]

theorem mem_decodeProposals {out : ℕ → ℕ → ℕ → ℚ} {w h : ℕ} {thr : ℚ}
    {p : Proposal} :
    p ∈ decodeProposals out w h thr ↔
      ∃ i s y x a, (i, s) ∈ strideEnum ∧ y < ceilDiv h s ∧ x < ceilDiv w s ∧
        a < 2 ∧ decodeCell out thr i s (ceilDiv w s) y x a = some p := by
  simp only [decodeProposals, List.mem_flatMap, List.mem_filterMap, List.mem_range]
  constructor
  · rintro ⟨⟨i, s⟩, his, y, hy, x, hx, a, ha, hcell⟩
    exact ⟨i, s, y, x, a, his, hy, hx, ha, hcell⟩
  · rintro ⟨i, s, y, x, a, his, hy, hx, ha, hcell⟩
    exact ⟨⟨i, s⟩, his, y, hy, x, hx, a, ha, hcell⟩



/-- C1: for every stride level (i, s) of the enumeration [8, 16, 32]
(score/box/landmark tensors at output indices i, i+3, i+6), every grid
cell (y, x) with y < ceil(h/s) and x < ceil(w/s), and every anchor a < 2,
the decoder reads flat index y*fw*2 + x*2 + a, and when the score passes
the threshold it emits a proposal whose box is
(cx - l*s, cy - t*s, cx + r*s, cy + b*s) for cx = (x+0.5)*s,
cy = (y+0.5)*s and raw box-tensor values (l, t, r, b) — the stride
multiply applied before combining with the center. -/
theorem claim_C1 (out : ℕ → ℕ → ℕ → ℚ) (w h : ℕ) (thr : ℚ) (i s y x a : ℕ)
    (hs : (i, s) ∈ strideEnum) (hy : y < ceilDiv h s) (hx : x < ceilDiv w s)
    (ha : a < 2) (hscore : thr ≤ out i (cellIdx (ceilDiv w s) y x a) 0) :
    (⟨⟨((x : ℚ) + 1/2) * s - out (i + 3) (cellIdx (ceilDiv w s) y x a) 0 * s,
       ((y : ℚ) + 1/2) * s - out (i + 3) (cellIdx (ceilDiv w s) y x a) 1 * s,
       ((x : ℚ) + 1/2) * s + out (i + 3) (cellIdx (ceilDiv w s) y x a) 2 * s,
       ((y : ℚ) + 1/2) * s + out (i + 3) (cellIdx (ceilDiv w s) y x a) 3 * s⟩,
      out i (cellIdx (ceilDiv w s) y x a) 0,
      (List.range 5).map fun k =>
        (((x : ℚ) + 1/2) * s + out (i + 6) (cellIdx (ceilDiv w s) y x a) (2 * k) * s,
         ((y : ℚ) + 1/2) * s + out (i + 6) (cellIdx (ceilDiv w s) y x a) (2 * k + 1) * s)⟩
      : Proposal) ∈ decodeProposals out w h thr := by
  rw [mem_decodeProposals]
  exact ⟨i, s, y, x, a, hs, hy, hx, ha, decodeCell_eq_some.mpr ⟨hscore, rfl⟩⟩

/-- Witness for C1 on a concrete constant tensor set. -/
theorem claim_C1_witness :
    ∃ p : Proposal, p ∈ decodeProposals (fun _ _ _ => 1) 8 8 1 :=
  ⟨_, claim_C1 (fun _ _ _ => 1) 8 8 1 0 8 0 0 0 (by norm_num [strideEnum])
    (by norm_num [ceilDiv]) (by norm_num [ceilDiv]) (by norm_num) (by norm_num)⟩



/-- C2 (amended): on a 640×640 canvas, the single stride-8 slot at grid
cell (10, 10), anchor 0 with score 0.9 and raw box distances (5, 5, 5, 5)
decodes at anchor center (84, 84) — visible in the five landmark points
(84, 84) — to the box (44, 44, 124, 124): the distances are first scaled
by the stride 8 to 40 pixels.  With confidence threshold 0.5 the slot
survives the filter, and `nms` returns the single-proposal list
unchanged. -/
theorem claim_C2_amended :
    decodeCell c2out confThreshold 0 8 80 10 10 0
      = some ⟨⟨44, 44, 124, 124⟩, 9/10,
          [(84, 84), (84, 84), (84, 84), (84, 84), (84, 84)]⟩ ∧
    (⟨⟨44, 44, 124, 124⟩, 9/10,
        [(84, 84), (84, 84), (84, 84), (84, 84), (84, 84)]⟩ : Proposal)
      ∈ decodeProposals c2out 640 640 confThreshold ∧
    nms nmsThreshold
        [⟨⟨44, 44, 124, 124⟩, 9/10,
          [(84, 84), (84, 84), (84, 84), (84, 84), (84, 84)]⟩]
      = [⟨⟨44, 44, 124, 124⟩, 9/10,
          [(84, 84), (84, 84), (84, 84), (84, 84), (84, 84)]⟩] := by
  have hcell : decodeCell c2out confThreshold 0 8 80 10 10 0
      = some ⟨⟨44, 44, 124, 124⟩, 9/10,
          [(84, 84), (84, 84), (84, 84), (84, 84), (84, 84)]⟩ := by
    rw [decodeCell_eq_some]
    constructor
    · norm_num [cellIdx, c2out, confThreshold]
    · rw [Proposal.mk.injEq, Box.mk.injEq]
      refine ⟨⟨?_, ?_, ?_, ?_⟩, ?_, ?_⟩ <;>
        norm_num [cellIdx, c2out, List.range_succ]
  refine ⟨hcell, ?_, ?_⟩
  · rw [mem_decodeProposals]
    have h80 : ceilDiv 640 8 = 80 := by norm_num [ceilDiv]
    exact ⟨0, 8, 10, 10, 0, by norm_num [strideEnum], by rw [h80]; omega,
      by rw [h80]; omega, by omega, by rw [h80]; exact hcell⟩
  · norm_num [nms, nmsKeep, argsortDesc, argsortAsc, List.insertionSort,
      List.orderedInsert, scoreAt, nmsLoop, survivesB, boxAt, interArea,
      unionArea, boxArea, nmsThreshold]



/-- C2 counterexample: at exactly the claimed input, no proposal decoded
from the synthetic 640×640 tensor set has the claimed box
(79, 79, 89, 89) — the decoder multiplies the distances (5, 5, 5, 5) by
the stride before combining with the center (84, 84), so the actual box
is (44, 44, 124, 124); and the decoder does emit a proposal there. -/
theorem claim_C2_counterexample :
    (decodeProposals c2out 640 640 confThreshold).all
        (fun p => decide (p.bbox ≠ ⟨79, 79, 89, 89⟩)) = true ∧
    decodeProposals c2out 640 640 confThreshold ≠ [] := by
  have h80 : ceilDiv 640 8 = 80 := by norm_num [ceilDiv]
  constructor
  · rw [List.all_eq_true]
    intro p hp
    refine decide_eq_true ?_
    intro hbbox
    obtain ⟨i, s, y, x, a, his, hy, hx, ha, hcell⟩ := mem_decodeProposals.mp hp
    obtain ⟨hthr, rfl⟩ := decodeCell_eq_some.mp hcell
    simp only [strideEnum, List.mem_cons, List.not_mem_nil, or_false,
      Prod.mk.injEq] at his
    rcases his with ⟨rfl, rfl⟩ | ⟨rfl, rfl⟩ | ⟨rfl, rfl⟩
    · by_cases hidx : cellIdx (ceilDiv 640 8) y x a = 1620
      · rw [h80] at hidx hx
        simp only [cellIdx] at hidx
        obtain ⟨rfl, rfl, rfl⟩ : y = 10 ∧ x = 10 ∧ a = 0 := by omega
        simp only [Box.mk.injEq] at hbbox
        norm_num [cellIdx, ceilDiv, c2out] at hbbox
      · norm_num [c2out, hidx, confThreshold] at hthr
    · norm_num [c2out, confThreshold] at hthr
    · norm_num [c2out, confThreshold] at hthr
  · refine List.ne_nil_of_mem (a := ⟨⟨44, 44, 124, 124⟩, 9/10,
      [(84, 84), (84, 84), (84, 84), (84, 84), (84, 84)]⟩) ?_
    rw [mem_decodeProposals]
    refine ⟨0, 8, 10, 10, 0, by norm_num [strideEnum], by rw [h80]; omega,
      by rw [h80]; omega, by omega, ?_⟩
    rw [h80, decodeCell_eq_some]
    constructor
    · norm_num [cellIdx, c2out, confThreshold]
    · rw [Proposal.mk.injEq, Box.mk.injEq]
      refine ⟨⟨?_, ?_, ?_, ?_⟩, ?_, ?_⟩ <;>
        norm_num [cellIdx, c2out, List.range_succ]



theorem preprocessScale_pos {w h tw th : ℕ} (hw : w ≠ 0) (hh : h ≠ 0) :
    preprocessScale w h tw th = .ok (min ((tw : ℚ)/w) ((th : ℚ)/h)) := by
  have hw' : ((w : ℚ)) ≠ 0 := Nat.cast_ne_zero.mpr hw
  have hh' : ((h : ℚ)) ≠ 0 := Nat.cast_ne_zero.mpr hh
  simp [preprocessScale, pyDiv, hw', hh', Bind.bind, Except.bind, pure,
    Except.pure]

/-- C7: for every image with positive dimensions and positive target
shape, the letterbox scale is exactly min(target_w/img_w, target_h/img_h)
and the truncated resized dimensions int(img_w*scale), int(img_h*scale)
never exceed the canvas width and height respectively. -/
theorem claim_C7 (w h tw th : ℕ) (hw : 0 < w) (hh : 0 < h)
    (_htw : 0 < tw) (_hth : 0 < th) :
    preprocessDims w h tw th
      = .ok (pyInt ((w : ℚ) * min ((tw : ℚ)/w) ((th : ℚ)/h)),
             pyInt ((h : ℚ) * min ((tw : ℚ)/w) ((th : ℚ)/h)),
             min ((tw : ℚ)/w) ((th : ℚ)/h)) ∧
    pyInt ((w : ℚ) * min ((tw : ℚ)/w) ((th : ℚ)/h)) ≤ tw ∧
    pyInt ((h : ℚ) * min ((tw : ℚ)/w) ((th : ℚ)/h)) ≤ th := by
  have hw' : ((w : ℚ)) ≠ 0 := Nat.cast_ne_zero.mpr hw.ne'
  have hh' : ((h : ℚ)) ≠ 0 := Nat.cast_ne_zero.mpr hh.ne'
  refine ⟨by simp [preprocessDims, preprocessScale_pos hw.ne' hh.ne', Bind.bind,
    Except.bind, pure, Except.pure], ?_, ?_⟩
  · have hb : (w : ℚ) * min ((tw : ℚ)/w) ((th : ℚ)/h) ≤ (tw : ℚ) := by
      calc (w : ℚ) * min ((tw : ℚ)/w) ((th : ℚ)/h)
          ≤ (w : ℚ) * ((tw : ℚ)/w) :=
            mul_le_mul_of_nonneg_left (min_le_left _ _) (by positivity)
        _ = (tw : ℚ) := by field_simp
    have hfl : (⌊(w : ℚ) * min ((tw : ℚ)/w) ((th : ℚ)/h)⌋ : ℤ) ≤ (tw : ℤ) := by
      calc ⌊(w : ℚ) * min ((tw : ℚ)/w) ((th : ℚ)/h)⌋
          ≤ ⌊((tw : ℕ) : ℚ)⌋ := Int.floor_le_floor hb
        _ = (tw : ℤ) := Int.floor_natCast tw
    exact Int.toNat_le.mpr hfl
  · have hb : (h : ℚ) * min ((tw : ℚ)/w) ((th : ℚ)/h) ≤ (th : ℚ) := by
      calc (h : ℚ) * min ((tw : ℚ)/w) ((th : ℚ)/h)
          ≤ (h : ℚ) * ((th : ℚ)/h) :=
            mul_le_mul_of_nonneg_left (min_le_right _ _) (by positivity)
        _ = (th : ℚ) := by field_simp
    have hfl : (⌊(h : ℚ) * min ((tw : ℚ)/w) ((th : ℚ)/h)⌋ : ℤ) ≤ (th : ℤ) := by
      calc ⌊(h : ℚ) * min ((tw : ℚ)/w) ((th : ℚ)/h)⌋
          ≤ ⌊((th : ℕ) : ℚ)⌋ := Int.floor_le_floor hb
        _ = (th : ℤ) := Int.floor_natCast th
    exact Int.toNat_le.mpr hfl

/-- Witness for C7 at a concrete 100×100 image and 640×640 target. -/
theorem claim_C7_witness :
    preprocessDims 100 100 640 640
      = .ok (pyInt (((100 : ℕ) : ℚ) * min (((640 : ℕ) : ℚ)/((100 : ℕ) : ℚ))
               (((640 : ℕ) : ℚ)/((100 : ℕ) : ℚ))),
             pyInt (((100 : ℕ) : ℚ) * min (((640 : ℕ) : ℚ)/((100 : ℕ) : ℚ))
               (((640 : ℕ) : ℚ)/((100 : ℕ) : ℚ))),
             min (((640 : ℕ) : ℚ)/((100 : ℕ) : ℚ))
               (((640 : ℕ) : ℚ)/((100 : ℕ) : ℚ))) ∧
    pyInt (((100 : ℕ) : ℚ) * min (((640 : ℕ) : ℚ)/((100 : ℕ) : ℚ))
        (((640 : ℕ) : ℚ)/((100 : ℕ) : ℚ))) ≤ 640 ∧
    pyInt (((100 : ℕ) : ℚ) * min (((640 : ℕ) : ℚ)/((100 : ℕ) : ℚ))
        (((640 : ℕ) : ℚ)/((100 : ℕ) : ℚ))) ≤ 640 :=
  claim_C7 100 100 640 640 (by norm_num) (by norm_num) (by norm_num) (by norm_num)

/-- C8: the pipeline maps canvas-space coordinates back to original-image
coordinates by dividing every box and landmark coordinate by the
letterbox scale, with no offset subtraction; in particular with scale 0.5
the canvas box (100, 100, 200, 200) maps to (200, 200, 400, 400). -/
theorem claim_C8 :
    (∀ (b : Box) (sc : ℚ), rescaleBox b sc
        = ⟨b.x1 / sc, b.y1 / sc, b.x2 / sc, b.y2 / sc⟩) ∧
    (∀ (kp : List (ℚ × ℚ)) (sc : ℚ), rescaleKps kp sc
        = kp.map fun q => (q.1 / sc, q.2 / sc)) ∧
    rescaleBox ⟨100, 100, 200, 200⟩ (1/2) = ⟨200, 200, 400, 400⟩ := by
  refine ⟨fun b sc => rfl, fun kp sc => rfl, ?_⟩
  norm_num [rescaleBox, Box.mk.injEq]

/-- Zero-dimension failure of the letterbox arithmetic: a zero image
width or height makes the division of line 21 raise ZeroDivisionError. -/
theorem preprocessDims_zero {w h : ℕ} (tw th : ℕ) (hz : w = 0 ∨ h = 0) :
    preprocessDims w h tw th = .error .zeroDivisionError := by
  rcases hz with rfl | rfl
  · simp [preprocessDims, preprocessScale, pyDiv, Bind.bind, Except.bind,
      pure, Except.pure]
  · by_cases hw : w = 0
    · subst hw
      simp [preprocessDims, preprocessScale, pyDiv, Bind.bind, Except.bind,
        pure, Except.pure]
    · have hw' : ((w : ℚ)) ≠ 0 := Nat.cast_ne_zero.mpr hw
      simp [preprocessDims, preprocessScale, pyDiv, hw', Bind.bind,
        Except.bind, pure, Except.pure]

/-- C9 (amended): on a zero width or height the letterbox fails with
Python's ZeroDivisionError from the unguarded division of line 21 — not
with a dedicated InvalidInput error as the specification's error taxonomy
claims (no code in check_model.py raises InvalidInput).  For
positive-dimension images the outcome is decided by the resize call of
line 27: the letterbox succeeds when both truncated scaled dimensions are
nonzero, and fails with cv2.error when either is 0 — which does happen
for positive dimensions at extreme aspect ratios, e.g. a 1×641 image into
a 640×640 canvas gives new_w = int(640/641) = 0, while e.g. a 100×100
image succeeds. -/
theorem claim_C9_amended (w h tw th : ℕ) :
    (w = 0 ∨ h = 0 → preprocessImage w h tw th = .error .zeroDivisionError) ∧
    (∀ nw nh sc, preprocessDims w h tw th = .ok (nw, nh, sc) →
      preprocessImage w h tw th =
        if nw = 0 ∨ nh = 0 then .error .cvError else .ok (nw, nh, sc)) ∧
    preprocessImage 1 641 640 640 = .error .cvError ∧
    (∃ v, preprocessImage 100 100 640 640 = .ok v) := by
  have hstep : ∀ (w' h' tw' th' : ℕ) (nw nh : ℕ) (sc : ℚ),
      preprocessDims w' h' tw' th' = .ok (nw, nh, sc) →
      preprocessImage w' h' tw' th' =
        if nw = 0 ∨ nh = 0 then .error .cvError else .ok (nw, nh, sc) := by
    intro w' h' tw' th' nw nh sc hok
    by_cases hzz : nw = 0 ∨ nh = 0
    · simp [preprocessImage, hok, cvResize, hzz, Bind.bind, Except.bind,
        pure, Except.pure]
    · simp [preprocessImage, hok, cvResize, hzz, Bind.bind, Except.bind,
        pure, Except.pure]
  have hdims1 : preprocessDims 1 641 640 640 = .ok (0, 640, (640 : ℚ)/641) := by
    have hsc : preprocessScale 1 641 640 640 = .ok ((640 : ℚ)/641) := by
      rw [preprocessScale_pos (by norm_num) (by norm_num)]
      norm_num
    simp only [preprocessDims, hsc, Bind.bind, Except.bind, pure, Except.pure]
    norm_num [pyInt]
    rfl
  have hdims2 : preprocessDims 100 100 640 640 = .ok (640, 640, (32 : ℚ)/5) := by
    have hsc : preprocessScale 100 100 640 640 = .ok ((32 : ℚ)/5) := by
      rw [preprocessScale_pos (by norm_num) (by norm_num)]
      norm_num
    simp only [preprocessDims, hsc, Bind.bind, Except.bind, pure, Except.pure]
    norm_num [pyInt]
    rfl
  refine ⟨?_, hstep w h tw th, ?_, ?_⟩
  · intro hz
    simp [preprocessImage, preprocessDims_zero tw th hz, Bind.bind,
      Except.bind, pure, Except.pure]
  · rw [hstep 1 641 640 640 0 640 ((640 : ℚ)/641) hdims1]
    norm_num
  · refine ⟨(640, 640, (32 : ℚ)/5), ?_⟩
    rw [hstep 100 100 640 640 640 640 ((32 : ℚ)/5) hdims2]
    norm_num

/-- Witness for C9 (amended) at concrete zero-width, extreme-aspect-ratio
and ordinary inputs. -/
theorem claim_C9_amended_witness :
    preprocessImage 0 100 640 640 = .error .zeroDivisionError ∧
    preprocessImage 1 641 640 640 = .error .cvError ∧
    (∃ v, preprocessImage 100 100 640 640 = .ok v) :=
  ⟨(claim_C9_amended 0 100 640 640).1 (Or.inl rfl),
   (claim_C9_amended 1 641 640 640).2.2.1,
   (claim_C9_amended 100 100 640 640).2.2.2⟩

/-- C9 counterexample: a zero-width image makes the letterbox arithmetic
fail with ZeroDivisionError, which is a different error from the
InvalidInput the claim requires. -/
theorem claim_C9_counterexample :
    preprocessDims 0 100 640 640 = .error .zeroDivisionError ∧
    preprocessDims 0 100 640 640 ≠ .error .invalidInput := by
  have hz : preprocessDims 0 100 640 640 = .error .zeroDivisionError := by
    simp [preprocessDims, preprocessScale, pyDiv, Bind.bind, Except.bind,
      pure, Except.pure]
  refine ⟨hz, ?_⟩
  rw [hz]
  simp

end Recognizr
